import Mathlib

set_option maxHeartbeats 1000000

/-!
Verification development for the navi-gAItor flight-telemetry platform.

The frontend (Vite + React + TypeScript) is embedded directly from its
source files.  The backend rule/risk engine is only described by the
specification and its frontend callers, so the definitions that stand for
it are modelled from the spec and say so in their doc comments.

Numbers are modelled as rationals; JavaScript floor, truncating remainder
and one-decimal rounding are made explicit.
-/

/-- Event and RuleEvent severity: the three enumerated levels of
frontend/src/types/index.ts. -/
inductive Severity where
  | info
  | warning
  | critical
deriving DecidableEq, Repr

/-- RulePanel.severityIcon: the icon shown next to a rule event, keyed by
severity (a total record over the three levels). -/
def severityIcon : Severity → String
  | Severity.critical => "🔴"
  | Severity.warning => "🟠"
  | Severity.info => "🔵"

/-- EventsTimeline.severityToHue: the dot colour keyed by severity (a total
record over the three levels). -/
def severityToHue : Severity → String
  | Severity.critical => "#ff6b6b"
  | Severity.warning => "#ffc857"
  | Severity.info => "#5cc8ff"

/-- RuleEvent from frontend/src/types/index.ts. -/
structure RuleEvent where
  rule : String
  severity : Severity
  time_seconds : ℚ
  description : String
  values : List (String × ℚ)
deriving DecidableEq, Repr

/-- FlightEvent from frontend/src/types/index.ts. -/
structure FlightEvent where
  type : String
  time_seconds : ℚ
  severity : Severity
  description : String
deriving DecidableEq, Repr

/-- RiskPoint from frontend/src/types/index.ts. -/
structure RiskPoint where
  time_seconds : ℚ
  hf_index : ℚ
deriving DecidableEq, Repr

/-- SignalMatrixPoint: a timestamp plus the keyed signal values present at
that grid step. -/
structure SignalMatrixPoint where
  time_seconds : ℚ
  signals : List (String × ℚ)
deriving DecidableEq, Repr

/-- A SignalMatrixPoint after SignalStrip.merged has attached an hf_index. -/
structure MergedPoint where
  time_seconds : ℚ
  signals : List (String × ℚ)
  hf_index : ℚ
deriving DecidableEq, Repr

/-- SeriesPoint from frontend/src/types/index.ts; every signal is optional. -/
structure SeriesPoint where
  time_seconds : ℚ
  alt_msl_ft : Option ℚ := none
  airspeed_indicated_kt : Option ℚ := none
  vertical_speed_fpm : Option ℚ := none
  roll_deg : Option ℚ := none
  pitch_deg : Option ℚ := none
deriving DecidableEq, Repr

/-- PresetWindow from frontend/src/types/index.ts. -/
structure PresetWindow where
  id : String
  label : String
  window : ℚ × ℚ
deriving DecidableEq, Repr

/-- FlightSummary from frontend/src/types/index.ts; aggregate scalars, the
max/min/avg fields optional. -/
structure FlightSummary where
  total_duration_seconds : ℚ
  total_duration_minutes : ℚ
  max_altitude_ft : Option ℚ := none
  min_altitude_ft : Option ℚ := none
  avg_altitude_ft : Option ℚ := none
  max_airspeed_kt : Option ℚ := none
  avg_airspeed_kt : Option ℚ := none
  max_climb_rate_fpm : Option ℚ := none
  max_descent_rate_fpm : Option ℚ := none
  max_bank_angle_deg : Option ℚ := none
  max_positive_g : Option ℚ := none
  max_negative_g : Option ℚ := none
  fuel_consumed_gal : Option ℚ := none
deriving DecidableEq, Repr

/-- The fields of AnalysisResponse (frontend/src/types/index.ts) that the
embedded code reads. -/
structure AnalysisResponse where
  filename : String
  summary : FlightSummary
  series_data : List SeriesPoint
  signal_matrix : List SignalMatrixPoint
  risk_trace : List RiskPoint
  rule_events : List RuleEvent
  presets : List PresetWindow
  debrief : String
deriving DecidableEq, Repr

/-- Canonical Sample (spec §3): one time-indexed record of optional canonical
signal values, as produced by the backend normalizer. -/
structure CanonicalSample where
  time_seconds : ℚ
  altitude_ft : Option ℚ := none
  airspeed_kt : Option ℚ := none
  bank_deg : Option ℚ := none
  g_normal : Option ℚ := none
deriving DecidableEq, Repr

/-- JavaScript truncation toward zero, used by the % operator. -/
def jsTrunc (q : ℚ) : ℤ := if 0 ≤ q then ⌊q⌋ else ⌈q⌉

/-- The JavaScript remainder a % b: a - b * trunc(a / b). -/
def jsMod (a b : ℚ) : ℚ := a - b * jsTrunc (a / b)

/-- String.prototype.padStart(2, "0"): prepend zeros until the length is at
least two. -/
def padStart2 (s : String) : String :=
  if 2 ≤ s.length then s
  else if s.length = 1 then "0" ++ s
  else "00" ++ s

/-- Decimal digits of the fractional part of a rational (fuelled; the values
reaching it here have short terminating expansions). -/
def fracDigits : ℚ → ℕ → List ℕ
  | _, 0 => []
  | q, k + 1 =>
    if q = 0 then []
    else (⌊q * 10⌋).toNat :: fracDigits (q * 10 - (⌊q * 10⌋ : ℤ)) k

/-- Concatenate decimal digits into a string. -/
def digitsStr (ds : List ℕ) : String := String.join (ds.map (fun d => toString d))

/-- JavaScript Number-to-string conversion for the values arising here:
integral values print with no decimal point; non-integral values print the
integer part, a dot, and the (terminating) decimal digits. -/
def jsNumToString (q : ℚ) : String :=
  if q.den = 1 then toString q.num
  else (if q < 0 then "-" else "") ++ toString ⌊|q|⌋ ++ "." ++
    digitsStr (fracDigits (|q| - (⌊|q|⌋ : ℤ)) 20)

namespace SignalStrip

/-- The map key used by SignalStrip: Number(t.toFixed(1)), i.e. the timestamp
rounded to one decimal (JavaScript toFixed rounds ties upward, as does
Mathlib's round). -/
def toFixed1Key (t : ℚ) : ℚ := (round (10 * t) : ℤ) / 10

/-- SignalStrip.riskLookup: a Map built by iterating the RiskPoint list and
setting the rounded timestamp as key, so the last point with a given key
wins; lookup returns its hf_index. -/
def riskLookup (risk : List RiskPoint) (k : ℚ) : Option ℚ :=
  (risk.reverse.find? (fun p => decide (toFixed1Key p.time_seconds = k))).map RiskPoint.hf_index

/-- SignalStrip.merged: every matrix point is extended with the hf_index found
in riskLookup at its rounded timestamp, defaulting to 0 when absent. -/
def merged (data : List SignalMatrixPoint) (risk : List RiskPoint) : List MergedPoint :=
  data.map (fun p =>
    ⟨p.time_seconds, p.signals, (riskLookup risk (toFixed1Key p.time_seconds)).getD 0⟩)

/-- SignalStrip.filtered: keeps the merged points whose time_seconds lies in
the inclusive window. -/
def filtered (w : ℚ × ℚ) (pts : List MergedPoint) : List MergedPoint :=
  pts.filter (fun p => decide (w.1 ≤ p.time_seconds ∧ p.time_seconds ≤ w.2))

/-- SignalStrip.formatTime: mins = Math.floor(seconds / 60), secs =
Math.floor(seconds % 60), rendered mins:secs with secs zero-padded to two
digits. -/
def formatTime (seconds : ℚ) : String :=
  toString ⌊seconds / 60⌋ ++ ":" ++ padStart2 (toString ⌊jsMod seconds 60⌋)

end SignalStrip

namespace EventsTimeline

/-- EventsTimeline.formatTime: mins = Math.floor(seconds / 60), secs =
Math.floor(seconds % 60), rendered mins:secs with secs zero-padded to two
digits. -/
def formatTime (seconds : ℚ) : String :=
  toString ⌊seconds / 60⌋ ++ ":" ++ padStart2 (toString ⌊jsMod seconds 60⌋)

end EventsTimeline

namespace FlightChart

/-- FlightChart.formatter: minutes = Math.floor(tick / 60) but seconds =
tick % 60 without flooring, so a non-integral tick renders its fractional
part. -/
def formatter (tick : ℚ) : String :=
  toString ⌊tick / 60⌋ ++ ":" ++ padStart2 (jsNumToString (jsMod tick 60))

/-- What FlightChart draws: whether the altitude and airspeed lines appear,
and which events get critical reference lines. -/
structure Render where
  drawAltitude : Bool
  drawAirspeed : Bool
  criticalMarkers : List FlightEvent
deriving DecidableEq, Repr

/-- FlightChart: renders nothing for an empty series; otherwise each line is
drawn exactly when the FIRST series point defines the corresponding field,
and critical events become reference markers. -/
def render (data : List SeriesPoint) (events : List FlightEvent) : Option Render :=
  match data with
  | [] => none
  | p0 :: _ =>
    some ⟨p0.alt_msl_ft.isSome, p0.airspeed_indicated_kt.isSome,
      events.filter (fun ev => decide (ev.severity = Severity.critical))⟩

end FlightChart

/-- The reference rendering named by the claim: floor(t / 60), a colon, and
t mod 60 zero-padded to two digits. -/
def canonicalTimeString (t : ℕ) : String :=
  toString (t / 60) ++ ":" ++ padStart2 (toString (t % 60))

/-- Largest element of a rational list, none when empty. -/
def maxQ : List ℚ → Option ℚ
  | [] => none
  | x :: rest =>
    match maxQ rest with
    | none => some x
    | some m => some (max x m)

/-- Modelled from the spec: the backend windowed-extraction step (§4.4) is not
under src/ (only its frontend callers are); given [s, e] seconds it keeps
exactly the RuleEvents whose time_seconds fall inside the inclusive window. -/
def windowRuleEvents (s e : ℚ) (evs : List RuleEvent) : List RuleEvent :=
  evs.filter (fun ev => decide (s ≤ ev.time_seconds ∧ ev.time_seconds ≤ e))

/-- Modelled from the spec: one max value of the window-scoped Summary (§4.4),
the maximum of a signal taken over only the samples whose time_seconds lie
inside the inclusive window. -/
def scopedMax (f : CanonicalSample → Option ℚ) (s e : ℚ)
    (samples : List CanonicalSample) : Option ℚ :=
  maxQ ((samples.filter
    (fun p => decide (s ≤ p.time_seconds ∧ p.time_seconds ≤ e))).filterMap f)

/-- Modelled from the spec: the reduced Summary scoped to [s, e] — max
altitude, max airspeed, max bank magnitude and max G magnitude over the
sub-range only. -/
def windowedSummary (s e : ℚ) (samples : List CanonicalSample) :
    Option ℚ × Option ℚ × Option ℚ × Option ℚ :=
  (scopedMax CanonicalSample.altitude_ft s e samples,
   scopedMax CanonicalSample.airspeed_kt s e samples,
   scopedMax (fun p => p.bank_deg.map abs) s e samples,
   scopedMax (fun p => p.g_normal.map abs) s e samples)

/-- A G_EXCEEDANCE event as produced by the backend detector. -/
structure GEvent where
  time_seconds : ℚ
  value : ℚ
  severity : Severity
deriving DecidableEq, Repr

/-- Modelled from the spec: one step of the G_EXCEEDANCE
threshold-with-hysteresis machine (§4.3); the backend engine is not under
src/.  A sample fires only while the machine is ARMED and |G| strictly
exceeds the type-rated limit; severity is critical when the value is at or
beyond 10% above the limit and warning otherwise; any sample at or below
the limit re-arms the machine. -/
def gStep (limit : ℚ) (armed : Bool) (t g : ℚ) : Bool × Option GEvent :=
  if limit < |g| then
    (false,
      if armed then
        some ⟨t, g, if limit * 11 / 10 ≤ |g| then Severity.critical else Severity.warning⟩
      else none)
  else (true, none)

/-- Modelled from the spec: the G_EXCEEDANCE detector run over (time, G)
samples from a given arming state. -/
def detectGFrom (limit : ℚ) (armed : Bool) : List (ℚ × ℚ) → List GEvent
  | [] => []
  | (t, g) :: rest =>
    match gStep limit armed t g with
    | (armed2, some ev) => ev :: detectGFrom limit armed2 rest
    | (armed2, none) => detectGFrom limit armed2 rest

/-- Modelled from the spec: the G_EXCEEDANCE detector, initially ARMED. -/
def detectG (limit : ℚ) (samples : List (ℚ × ℚ)) : List GEvent :=
  detectGFrom limit true samples

/-- Modelled from the spec: the STEEP_TURN threshold-with-hysteresis detector
(§4.3) run over (time, bank) samples; it emits the firing time on a
below-to-above crossing of the bank-magnitude threshold and stays silent
until the signal returns to or below the threshold. -/
def steepTurnDetectFrom (thr : ℚ) (armed : Bool) : List (ℚ × ℚ) → List ℚ
  | [] => []
  | (t, bank) :: rest =>
    if thr < |bank| then
      (if armed then [t] else []) ++ steepTurnDetectFrom thr false rest
    else steepTurnDetectFrom thr true rest

/-- Modelled from the spec: the STEEP_TURN detector, initially ARMED. -/
def steepTurnDetect (thr : ℚ) (samples : List (ℚ × ℚ)) : List ℚ :=
  steepTurnDetectFrom thr true samples

/-- The number of below-to-above crossings of the bank-magnitude threshold in
a signal, starting from a given arming state. -/
def risingEdges (thr : ℚ) (armed : Bool) : List ℚ → ℕ
  | [] => 0
  | bank :: rest =>
    if thr < |bank| then (if armed then 1 else 0) + risingEdges thr false rest
    else risingEdges thr true rest

namespace App

/-- App: the flight duration used for the default window and the full-flight
preset — the last signal-matrix timestamp, falling back to the last
series-data timestamp, and to 0 when both are empty. -/
def duration (r : AnalysisResponse) : ℚ :=
  ((r.signal_matrix.getLast?).map SignalMatrixPoint.time_seconds).getD
    (((r.series_data.getLast?).map SeriesPoint.time_seconds).getD 0)

/-- The synthesized full-flight preset. -/
def fullFlightPreset (d : ℚ) : PresetWindow := ⟨"full", "Full Flight", (0, d)⟩

/-- App.presets: empty with no result; the backend presets when it supplied a
non-empty list; otherwise exactly the full-flight window. -/
def presets (result : Option AnalysisResponse) : List PresetWindow :=
  match result with
  | none => []
  | some r =>
    if r.presets ≠ [] then r.presets
    else [fullFlightPreset (duration r)]

end App

/-- useFlightAnalysis status values. -/
inductive Status where
  | idle
  | uploading
  | processing
  | ready
  | error
deriving DecidableEq, Repr

/-- The state held by useFlightAnalysis: status, upload progress percent,
error message, and the stored result bundle. -/
structure AnalysisState (α : Type) where
  status : Status
  progress : ℕ
  error : Option String
  result : Option α
deriving DecidableEq, Repr

/-- How one run of useFlightAnalysis.analyze ends: the upload resolves with a
complete response, or it throws with a message. -/
inductive RunOutcome (α : Type) where
  | success (response : α)
  | failure (message : String)
deriving DecidableEq, Repr

/-- The states successively exposed while the upload-progress callback runs:
each update changes only the progress field. -/
def uploadStates {α : Type} (s : AnalysisState α) : List ℕ → List (AnalysisState α)
  | [] => []
  | p :: rest =>
    ⟨s.status, p, s.error, s.result⟩ :: uploadStates ⟨s.status, p, s.error, s.result⟩ rest

/-- useFlightAnalysis.analyze, as the sequence of states exposed to the
caller: first error cleared, progress reset and status uploading; then one
state per progress update; then, on success, a processing state followed by
the ready state holding the complete response, or, on failure, the error
state that keeps the previously stored result. -/
def analyzeTrace {α : Type} (st : AnalysisState α) (updates : List ℕ)
    (out : RunOutcome α) : List (AnalysisState α) :=
  let s0 : AnalysisState α := ⟨Status.uploading, 0, none, st.result⟩
  let ups := uploadStates s0 updates
  let sl := ups.getLastD s0
  match out with
  | RunOutcome.success r =>
    s0 :: ups ++ [⟨Status.processing, sl.progress, sl.error, sl.result⟩,
      ⟨Status.ready, sl.progress, sl.error, some r⟩]
  | RunOutcome.failure m =>
    s0 :: ups ++ [⟨Status.error, sl.progress, some m, sl.result⟩]

/-- useFlightAnalysis.analyze, as the state left when the call returns. -/
def analyzeFinal {α : Type} (st : AnalysisState α) (updates : List ℕ)
    (out : RunOutcome α) : AnalysisState α :=
  let s0 : AnalysisState α := ⟨Status.uploading, 0, none, st.result⟩
  let sl := (uploadStates s0 updates).getLastD s0
  match out with
  | RunOutcome.success r => ⟨Status.ready, sl.progress, sl.error, some r⟩
  | RunOutcome.failure m => ⟨Status.error, sl.progress, some m, sl.result⟩

/-- AiAgentRequest from frontend/src/types/index.ts, the payload posted to
/ai/agent. -/
structure AiAgentRequest where
  command : String
  window_start : Option ℚ
  window_end : Option ℚ
  summary : FlightSummary
  rule_events : List RuleEvent
deriving DecidableEq, Repr

/-- One entry of the AI console log (id and wall-clock timestamp omitted:
they come from Date.now and Math.random). -/
structure AiLogEntry where
  command : String
  response : String
deriving DecidableEq, Repr

/-- How the posted request resolves: a log string, or a thrown error. -/
inductive AiOutcome where
  | ok (log : String)
  | failed (message : String)
deriving DecidableEq, Repr

/-- JavaScript String.prototype.trim: strip whitespace from both ends. -/
def jsTrim (s : String) : String :=
  ⟨((s.data.dropWhile Char.isWhitespace).reverse.dropWhile Char.isWhitespace).reverse⟩

namespace useAiConsole

/-- useAiConsole.runCommand: with a null summary or blank command it returns
early; otherwise it posts exactly one AiAgentRequest carrying the command,
the optional window bounds, the full summary and the complete rule-event
list, and appends one log entry built from the response (or from the thrown
error).  The result is (requests sent, new log list). -/
def runCommand (summary : Option FlightSummary) (ruleEvents : List RuleEvent)
    (logs : List AiLogEntry) (command : String) (window : Option (ℚ × ℚ))
    (out : AiOutcome) : List AiAgentRequest × List AiLogEntry :=
  match summary with
  | none => ([], logs)
  | some s =>
    if jsTrim command = "" then ([], logs)
    else
      ([⟨command, window.map Prod.fst, window.map Prod.snd, s, ruleEvents⟩],
        logs ++ [⟨command,
          match out with
          | AiOutcome.ok l => l
          | AiOutcome.failed m => "ERROR: " ++ m⟩])

end useAiConsole

/-- A concrete canonical sample used by witnesses. -/
def sampleEx : CanonicalSample := ⟨70, none, none, none, some 3⟩

/-- A concrete summary used by witnesses. -/
def summaryEx : FlightSummary :=
  ⟨3600, 60, none, none, none, none, none, none, none, none, none, none, none⟩

/-- A concrete matrix point used by witnesses. -/
def matrixPtEx : SignalMatrixPoint := ⟨10, []⟩

/-- A concrete analysis response with no backend presets, used by witnesses. -/
def respEx : AnalysisResponse := ⟨"log.csv", summaryEx, [], [matrixPtEx], [], [], [], ""⟩

/-- A concrete pre-call hook state used by witnesses. -/
def stEx : AnalysisState ℕ := ⟨Status.idle, 5, none, some 7⟩

/-- The error state exposed when analyzing from stEx fails with no progress
updates. -/
def sErrEx : AnalysisState ℕ := ⟨Status.error, 0, some "net", some 7⟩

/-- A pre-call hook state with nonzero progress, used by the C5
counterexample. -/
def stReadyEx : AnalysisState ℕ := ⟨Status.ready, 37, none, some 1⟩

theorem maxQ_mem {l : List ℚ} {v : ℚ} (h : maxQ l = some v) : v ∈ l := by
  induction l generalizing v with
  | nil => simp [maxQ] at h
  | cons x rest ih =>
    rw [maxQ] at h
    cases hr : maxQ rest with
    | none =>
      rw [hr] at h
      simp only [Option.some.injEq] at h
      simp [← h]
    | some m =>
      rw [hr] at h
      simp only [Option.some.injEq] at h
      rcases max_choice x m with hm | hm
      · rw [← h, hm]
        exact List.mem_cons_self x rest
      · rw [← h, hm]
        exact List.mem_cons_of_mem x (ih hr)

theorem maxQ_is_ub {l : List ℚ} {v : ℚ} (h : maxQ l = some v) : ∀ x ∈ l, x ≤ v := by
  induction l generalizing v with
  | nil => simp
  | cons y rest ih =>
    rw [maxQ] at h
    cases hr : maxQ rest with
    | none =>
      rw [hr] at h
      simp only [Option.some.injEq] at h
      subst h
      intro x hx
      rcases List.mem_cons.mp hx with hxy | hxr
      · exact le_of_eq hxy
      · exfalso
        rcases List.exists_cons_of_ne_nil (List.ne_nil_of_mem hxr) with ⟨a, t, ht⟩
        subst ht
        rw [maxQ] at hr
        cases hmt : maxQ t with
        | none => rw [hmt] at hr; exact Option.noConfusion hr
        | some m => rw [hmt] at hr; exact Option.noConfusion hr
    | some m =>
      rw [hr] at h
      simp only [Option.some.injEq] at h
      subst h
      intro x hx
      rcases List.mem_cons.mp hx with hxy | hxr
      · rw [hxy]
        exact le_max_left y m
      · exact le_trans (ih hr x hxr) (le_max_right y m)

theorem detectGFrom_sound (limit : ℚ) (samples : List (ℚ × ℚ)) :
    ∀ (armed : Bool) (ev : GEvent), ev ∈ detectGFrom limit armed samples →
      limit < |ev.value| ∧
        ev.severity =
          (if limit * 11 / 10 ≤ |ev.value| then Severity.critical else Severity.warning) := by
  induction samples with
  | nil =>
    intro armed ev h
    simp [detectGFrom] at h
  | cons s rest ih =>
    intro armed ev h
    obtain ⟨t, g⟩ := s
    rw [detectGFrom, gStep] at h
    by_cases hg : limit < |g|
    · rw [if_pos hg] at h
      cases armed with
      | true =>
        simp at h
        rcases h with hev | hev
        · subst hev
          exact ⟨hg, rfl⟩
        · exact ih false ev hev
      | false =>
        refine ih false ev ?_
        simpa using h
    · rw [if_neg hg] at h
      refine ih true ev ?_
      simpa using h

theorem steepTurn_length_eq_edges (thr : ℚ) (samples : List (ℚ × ℚ)) :
    ∀ armed, (steepTurnDetectFrom thr armed samples).length =
      risingEdges thr armed (samples.map Prod.snd) := by
  induction samples with
  | nil => intro armed; rfl
  | cons s rest ih =>
    intro armed
    obtain ⟨t, bank⟩ := s
    rw [List.map_cons, steepTurnDetectFrom, risingEdges]
    by_cases hb : thr < |bank|
    · rw [if_pos hb, if_pos hb, List.length_append, ih false]
      cases armed <;> rfl
    · rw [if_neg hb, if_neg hb]
      exact ih true

theorem risingEdges_below_append (thr : ℚ) (xs ys : List ℚ) (h : ∀ x ∈ xs, ¬ thr < |x|) :
    risingEdges thr true (xs ++ ys) = risingEdges thr true ys := by
  induction xs with
  | nil => rfl
  | cons a t ih =>
    rw [List.cons_append, risingEdges, if_neg (h a (List.mem_cons_self a t))]
    exact ih (fun x hx => h x (List.mem_cons_of_mem a hx))

theorem risingEdges_above_append (thr : ℚ) (xs ys : List ℚ) (h : ∀ x ∈ xs, thr < |x|) :
    risingEdges thr false (xs ++ ys) = risingEdges thr false ys := by
  induction xs with
  | nil => rfl
  | cons a t ih =>
    rw [List.cons_append, risingEdges, if_pos (h a (List.mem_cons_self a t))]
    rw [if_neg (by simp : ¬ false = true), Nat.zero_add]
    exact ih (fun x hx => h x (List.mem_cons_of_mem a hx))

theorem risingEdges_below_zero (thr : ℚ) (xs : List ℚ) (h : ∀ x ∈ xs, ¬ thr < |x|) :
    ∀ armed, risingEdges thr armed xs = 0 := by
  induction xs with
  | nil => intro armed; rfl
  | cons a t ih =>
    intro armed
    rw [risingEdges, if_neg (h a (List.mem_cons_self a t))]
    exact ih (fun x hx => h x (List.mem_cons_of_mem a hx)) true

theorem uploadStates_fields {α : Type} (ups : List ℕ) :
    ∀ (s : AnalysisState α), ∀ x ∈ uploadStates s ups,
      x.status = s.status ∧ x.error = s.error ∧ x.result = s.result := by
  induction ups with
  | nil =>
    intro s x hx
    simp [uploadStates] at hx
  | cons p rest ih =>
    intro s x hx
    rw [uploadStates] at hx
    rcases List.mem_cons.mp hx with hxe | hxm
    · subst hxe
      exact ⟨rfl, rfl, rfl⟩
    · exact ih ⟨s.status, p, s.error, s.result⟩ x hxm

theorem floor_div_sixty (t : ℕ) : ⌊(t : ℚ) / 60⌋ = ((t / 60 : ℕ) : ℤ) := by
  have h : ((60 : ℕ) : ℚ) = 60 := by norm_num
  rw [← h, Rat.floor_natCast_div_natCast]
  exact_mod_cast rfl

theorem jsTrunc_div_sixty (t : ℕ) : jsTrunc ((t : ℚ) / 60) = ((t / 60 : ℕ) : ℤ) := by
  rw [jsTrunc, if_pos (by positivity)]
  exact floor_div_sixty t

theorem jsMod_natCast_sixty (t : ℕ) : jsMod (t : ℚ) 60 = ((t % 60 : ℕ) : ℚ) := by
  rw [jsMod, jsTrunc_div_sixty]
  have h : (60 : ℚ) * ((t / 60 : ℕ) : ℚ) + ((t % 60 : ℕ) : ℚ) = (t : ℚ) := by
    exact_mod_cast Nat.div_add_mod t 60
  have h2 : (((t / 60 : ℕ) : ℤ) : ℚ) = ((t / 60 : ℕ) : ℚ) := by norm_cast
  rw [h2]
  linarith

theorem toString_intCast_nat (n : ℕ) : toString ((n : ℤ)) = toString n := rfl

theorem jsNumToString_natCast (n : ℕ) : jsNumToString (n : ℚ) = toString n := by
  rw [jsNumToString, if_pos (Rat.den_natCast n), Rat.num_natCast]
  exact toString_intCast_nat n

/-- C1: for every window and every already-computed sequence of time-indexed
records, the windowed extraction (SignalStrip.filtered over merged points,
and the spec-modelled backend filter over RuleEvents) keeps exactly the
elements with start ≤ time_seconds ≤ end, and each window-scoped Summary
max (scopedMax) is attained by an in-window sample and bounds every
in-window sample. -/
theorem windowed_extraction_exact (w : ℚ × ℚ) (pts : List MergedPoint)
    (s e : ℚ) (evs : List RuleEvent) (f : CanonicalSample → Option ℚ)
    (samples : List CanonicalSample) :
    (∀ p, p ∈ SignalStrip.filtered w pts ↔
      p ∈ pts ∧ w.1 ≤ p.time_seconds ∧ p.time_seconds ≤ w.2)
  ∧ (∀ ev, ev ∈ windowRuleEvents s e evs ↔
      ev ∈ evs ∧ s ≤ ev.time_seconds ∧ ev.time_seconds ≤ e)
  ∧ (∀ v, scopedMax f s e samples = some v →
      (∃ q, q ∈ samples ∧ (s ≤ q.time_seconds ∧ q.time_seconds ≤ e) ∧ f q = some v)
      ∧ ∀ q, q ∈ samples → s ≤ q.time_seconds → q.time_seconds ≤ e →
          ∀ x, f q = some x → x ≤ v) := by
  refine ⟨?_, ?_, ?_⟩
  · intro p
    simp [SignalStrip.filtered, List.mem_filter]
  · intro ev
    simp [windowRuleEvents, List.mem_filter]
  · intro v hv
    rw [scopedMax] at hv
    constructor
    · have hm := maxQ_mem hv
      rw [List.mem_filterMap] at hm
      obtain ⟨q, hq, hfq⟩ := hm
      rw [List.mem_filter] at hq
      obtain ⟨hq1, hq2⟩ := hq
      rw [decide_eq_true_eq] at hq2
      exact ⟨q, hq1, hq2, hfq⟩
    · intro q hq hs he x hx
      refine maxQ_is_ub hv x ?_
      rw [List.mem_filterMap]
      refine ⟨q, ?_, hx⟩
      rw [List.mem_filter]
      refine ⟨hq, ?_⟩
      rw [decide_eq_true_eq]
      exact ⟨hs, he⟩

/-- C1 witness: the theorem applied at window [60, 120] and one sample at
t = 70 carrying G 3. -/
theorem windowed_extraction_exact_witness :
    scopedMax CanonicalSample.g_normal 60 120 [sampleEx] = some 3
  ∧ ((∃ q, q ∈ [sampleEx] ∧ ((60 : ℚ) ≤ q.time_seconds ∧ q.time_seconds ≤ 120)
        ∧ CanonicalSample.g_normal q = some 3)
      ∧ ∀ q, q ∈ [sampleEx] → (60 : ℚ) ≤ q.time_seconds → q.time_seconds ≤ 120 →
          ∀ x, CanonicalSample.g_normal q = some x → x ≤ 3) :=
  ⟨by decide,
    (windowed_extraction_exact (0, 0) [] 60 120 [] CanonicalSample.g_normal [sampleEx]).2.2 3
      (by decide)⟩

/-- C2: a G value exactly at the type-rated limit never fires G_EXCEEDANCE;
an armed sample above the limit by less than 10% fires with severity
warning; at or beyond 10% above fires critical — and every event the
detector emits over any sample sequence obeys this classification. -/
theorem g_exceedance_threshold_edges (limit : ℚ) (hpos : 0 < limit) :
    (∀ (samples : List (ℚ × ℚ)) (ev : GEvent), ev ∈ detectG limit samples →
        limit < |ev.value|
      ∧ (ev.severity = Severity.critical ↔ limit * 11 / 10 ≤ |ev.value|)
      ∧ (ev.severity = Severity.warning ↔
          limit < |ev.value| ∧ |ev.value| < limit * 11 / 10))
  ∧ (∀ t g : ℚ, |g| ≤ limit → (gStep limit true t g).2 = none)
  ∧ (∀ t g : ℚ, limit < |g| → |g| < limit * 11 / 10 →
      (gStep limit true t g).2 = some ⟨t, g, Severity.warning⟩)
  ∧ (∀ t g : ℚ, limit * 11 / 10 ≤ |g| →
      (gStep limit true t g).2 = some ⟨t, g, Severity.critical⟩) := by
  refine ⟨?_, ?_, ?_, ?_⟩
  · intro samples ev hev
    obtain ⟨h1, h2⟩ := detectGFrom_sound limit samples true ev hev
    refine ⟨h1, ?_, ?_⟩
    · rw [h2]
      rcases le_or_lt (limit * 11 / 10) |ev.value| with hc | hc
      · rw [if_pos hc]
        exact iff_of_true rfl hc
      · rw [if_neg (not_le.mpr hc)]
        exact iff_of_false (by decide) (not_le.mpr hc)
    · rw [h2]
      rcases le_or_lt (limit * 11 / 10) |ev.value| with hc | hc
      · rw [if_pos hc]
        constructor
        · intro h3
          exact absurd h3 (by decide)
        · intro h3
          exact absurd h3.2 (not_lt.mpr hc)
      · rw [if_neg (not_le.mpr hc)]
        exact iff_of_true rfl ⟨h1, hc⟩
  · intro t g hg
    rw [gStep, if_neg (not_lt.mpr hg)]
  · intro t g hg1 hg2
    rw [gStep, if_pos hg1]
    show some (⟨t, g, if limit * 11 / 10 ≤ |g| then Severity.critical else Severity.warning⟩ : GEvent)
      = some ⟨t, g, Severity.warning⟩
    rw [if_neg (not_le.mpr hg2)]
  · intro t g hc
    have hg1 : limit < |g| := lt_of_lt_of_le (by linarith) hc
    rw [gStep, if_pos hg1]
    show some (⟨t, g, if limit * 11 / 10 ≤ |g| then Severity.critical else Severity.warning⟩ : GEvent)
      = some ⟨t, g, Severity.critical⟩
    rw [if_pos hc]

/-- C2 witness: with limit 100, an armed sample at 105 fires warning, one at
110 fires critical, and one exactly at 100 does not fire. -/
theorem g_exceedance_threshold_edges_witness :
    (0 : ℚ) < 100
  ∧ (gStep 100 true 0 105).2 = some ⟨0, 105, Severity.warning⟩
  ∧ (gStep 100 true 1 110).2 = some ⟨1, 110, Severity.critical⟩
  ∧ (gStep 100 true 2 100).2 = none :=
  ⟨by norm_num,
    (g_exceedance_threshold_edges 100 (by norm_num)).2.2.1 0 105
      (by norm_num [abs_of_pos]) (by norm_num [abs_of_pos]),
    (g_exceedance_threshold_edges 100 (by norm_num)).2.2.2 1 110
      (by norm_num [abs_of_pos]),
    (g_exceedance_threshold_edges 100 (by norm_num)).2.1 2 100
      (by norm_num [abs_of_pos])⟩

/-- C3: one contiguous interval of consecutive samples above the steep-turn
threshold yields exactly one STEEP_TURN event, not one per sample; and in
general the detector fires exactly once per below-to-above crossing, never
re-firing while the signal stays above threshold. -/
theorem steep_turn_dedup (thr : ℚ) (pre mid post : List (ℚ × ℚ))
    (hpre : ∀ s ∈ pre, ¬ thr < |s.2|) (hmid : mid ≠ [])
    (hmid2 : ∀ s ∈ mid, thr < |s.2|) (hpost : ∀ s ∈ post, ¬ thr < |s.2|) :
    (steepTurnDetect thr (pre ++ mid ++ post)).length = 1
  ∧ ∀ samples : List (ℚ × ℚ),
      (steepTurnDetect thr samples).length =
        risingEdges thr true (samples.map Prod.snd) := by
  constructor
  · have hpre2 : ∀ x ∈ pre.map Prod.snd, ¬ thr < |x| := by
      intro x hx
      obtain ⟨sp, hsp, rfl⟩ := List.mem_map.mp hx
      exact hpre sp hsp
    have hpost2 : ∀ x ∈ post.map Prod.snd, ¬ thr < |x| := by
      intro x hx
      obtain ⟨sp, hsp, rfl⟩ := List.mem_map.mp hx
      exact hpost sp hsp
    obtain ⟨b, mid2, rfl⟩ := List.exists_cons_of_ne_nil hmid
    have hmid4 : ∀ x ∈ mid2.map Prod.snd, thr < |x| := by
      intro x hx
      obtain ⟨sp, hsp, rfl⟩ := List.mem_map.mp hx
      exact hmid2 sp (List.mem_cons_of_mem b hsp)
    rw [steepTurnDetect, steepTurn_length_eq_edges]
    rw [List.map_append, List.map_append, List.append_assoc]
    rw [risingEdges_below_append thr _ _ hpre2]
    rw [List.map_cons, List.cons_append, risingEdges]
    rw [if_pos (hmid2 b (List.mem_cons_self b mid2))]
    rw [risingEdges_above_append thr _ _ hmid4]
    rw [risingEdges_below_zero thr _ hpost2 false]
    rfl
  · intro samples
    exact steepTurn_length_eq_edges thr samples true

/-- C3 witness: a five-sample trace with one three-sample excursion above a
45 degree threshold fires exactly once. -/
theorem steep_turn_dedup_witness :
    (steepTurnDetect 45 [(0, 10), (1, 50), (2, 55), (3, 50), (4, 10)]).length = 1 :=
  (steep_turn_dedup 45 [(0, 10)] [(1, 50), (2, 55), (3, 50)] [(4, 10)]
    (by decide) (by decide) (by decide) (by decide)).1

/-- C4 counterexample: with an empty RiskPoint list there is no risk value
for the matrix timestamp 5, yet SignalStrip.merged substitutes hf_index 0
for that sample instead of treating it as absent. -/
theorem merged_substitutes_zero_cex :
    SignalStrip.riskLookup [] (SignalStrip.toFixed1Key 5) = none
  ∧ SignalStrip.merged [⟨5, []⟩] [] = [⟨5, [], 0⟩] :=
  ⟨rfl, by decide⟩

/-- C4 amended: every merged point carries the hf_index of the matching
RiskPoint when one exists and the substituted value 0 when none exists —
the code substitutes zero for a missing risk value rather than treating the
sample as absent — while timestamp and signals pass through unchanged. -/
theorem merged_hf_index_substitution (data : List SignalMatrixPoint)
    (risk : List RiskPoint) :
    ∀ q ∈ SignalStrip.merged data risk,
      (SignalStrip.riskLookup risk (SignalStrip.toFixed1Key q.time_seconds) = none →
        q.hf_index = 0)
    ∧ (∀ v, SignalStrip.riskLookup risk (SignalStrip.toFixed1Key q.time_seconds) = some v →
        q.hf_index = v)
    ∧ ∃ p, p ∈ data ∧ p.time_seconds = q.time_seconds ∧ p.signals = q.signals := by
  intro q hq
  rw [SignalStrip.merged] at hq
  obtain ⟨p, hp, rfl⟩ := List.mem_map.mp hq
  refine ⟨?_, ?_, ⟨p, hp, rfl, rfl⟩⟩
  · intro hnone
    show (SignalStrip.riskLookup risk (SignalStrip.toFixed1Key p.time_seconds)).getD 0 = 0
    rw [show SignalStrip.riskLookup risk (SignalStrip.toFixed1Key p.time_seconds) = none from hnone]
    rfl
  · intro v hv
    show (SignalStrip.riskLookup risk (SignalStrip.toFixed1Key p.time_seconds)).getD 0 = v
    rw [show SignalStrip.riskLookup risk (SignalStrip.toFixed1Key p.time_seconds) = some v from hv]
    rfl

/-- C4 witness: the amended theorem applied where a RiskPoint does match the
matrix timestamp, so the matched hf_index 42 comes through. -/
theorem merged_hf_index_substitution_witness :
    (⟨1, [], 42⟩ : MergedPoint).hf_index = 42
  ∧ SignalStrip.riskLookup [⟨1, 42⟩] (SignalStrip.toFixed1Key (1 : ℚ)) = some 42 := by
  have hM : SignalStrip.merged [⟨1, []⟩] [⟨1, 42⟩] = [⟨1, [], 42⟩] := by
    norm_num [SignalStrip.merged, SignalStrip.riskLookup, SignalStrip.toFixed1Key, List.find?]
  have hL : SignalStrip.riskLookup [⟨1, 42⟩]
      (SignalStrip.toFixed1Key ((⟨1, [], 42⟩ : MergedPoint).time_seconds)) = some 42 := by
    norm_num [SignalStrip.riskLookup, SignalStrip.toFixed1Key, List.find?]
  refine ⟨?_, hL⟩
  exact (merged_hf_index_substitution [⟨1, []⟩] [⟨1, 42⟩] ⟨1, [], 42⟩
    (by rw [hM]; exact List.mem_singleton_self _)).2.1 42 hL

/-- C5 counterexample: when a run fails the stored result is indeed kept, but
the progress field also changes (it is reset when the call starts), so it is
not true that only the error message and status change. -/
theorem analyze_progress_change_cex :
    (analyzeFinal stReadyEx [] (RunOutcome.failure "network down")).progress ≠ stReadyEx.progress
  ∧ (analyzeFinal stReadyEx [] (RunOutcome.failure "network down")).result = stReadyEx.result := by
  exact ⟨by decide, by decide⟩

/-- C5 amended: a run either completes and the complete response replaces the
stored result, or fails and the stored result is exactly as before (the
error message, status and upload progress change); and every state exposed
during the run carries either the previous result or the complete new
response, never a partial structure. -/
theorem analyze_all_or_nothing (α : Type) (st : AnalysisState α) (updates : List ℕ) :
    (∀ m, (analyzeFinal st updates (RunOutcome.failure m)).result = st.result
      ∧ (analyzeFinal st updates (RunOutcome.failure m)).error = some m
      ∧ (analyzeFinal st updates (RunOutcome.failure m)).status = Status.error)
  ∧ (∀ r, (analyzeFinal st updates (RunOutcome.success r)).result = some r
      ∧ (analyzeFinal st updates (RunOutcome.success r)).status = Status.ready)
  ∧ ∀ out, ∀ x ∈ analyzeTrace st updates out,
      x.result = st.result ∨ ∃ r, out = RunOutcome.success r ∧ x.result = some r := by
  have hsl : ((uploadStates (⟨Status.uploading, 0, none, st.result⟩ : AnalysisState α)
      updates).getLastD ⟨Status.uploading, 0, none, st.result⟩).result = st.result := by
    rcases List.mem_cons.mp
      (List.getLastD_mem_cons
        (uploadStates (⟨Status.uploading, 0, none, st.result⟩ : AnalysisState α) updates)
        ⟨Status.uploading, 0, none, st.result⟩) with he | hm
    · rw [he]
    · exact (uploadStates_fields updates _ _ hm).2.2
  refine ⟨?_, ?_, ?_⟩
  · intro m
    exact ⟨hsl, rfl, rfl⟩
  · intro r
    exact ⟨rfl, rfl⟩
  · intro out x hx
    simp only [analyzeTrace] at hx
    cases out with
    | success r =>
      rcases List.mem_cons.mp hx with he | hm
      · left
        rw [he]
      · rcases List.mem_append.mp hm with hu | hf
        · left
          exact (uploadStates_fields updates _ x hu).2.2
        · rcases List.mem_cons.mp hf with h1 | h2
          · left
            rw [h1]
            exact hsl
          · rcases List.mem_cons.mp h2 with h3 | h4
            · right
              exact ⟨r, rfl, by rw [h3]⟩
            · exact absurd h4 (List.not_mem_nil x)
    | failure m =>
      rcases List.mem_cons.mp hx with he | hm
      · left
        rw [he]
      · rcases List.mem_append.mp hm with hu | hf
        · left
          exact (uploadStates_fields updates _ x hu).2.2
        · rcases List.mem_cons.mp hf with h1 | h2
          · left
            rw [h1]
            exact hsl
          · exact absurd h2 (List.not_mem_nil x)

/-- C5 witness: the exposure property applied to the concrete failing run
from stEx — the exposed error state still carries the previous result. -/
theorem analyze_all_or_nothing_witness :
    sErrEx.result = stEx.result
  ∨ ∃ r, (RunOutcome.failure "net" : RunOutcome ℕ) = RunOutcome.success r
      ∧ sErrEx.result = some r :=
  (analyze_all_or_nothing ℕ stEx []).2.2 (RunOutcome.failure "net") sErrEx (by decide)

/-- C6: for every successful analysis result the preset list used for
navigation is non-empty: backend presets are used unchanged when non-empty,
otherwise exactly one full-flight window [0, duration], where duration is
the last signal-matrix timestamp, falling back to the last series-data
timestamp and to 0 when both sequences are empty. -/
theorem app_presets_correct (r : AnalysisResponse) :
    App.presets (some r) ≠ []
  ∧ (r.presets ≠ [] → App.presets (some r) = r.presets)
  ∧ (r.presets = [] → App.presets (some r) = [App.fullFlightPreset (App.duration r)])
  ∧ (∀ p, r.signal_matrix.getLast? = some p → App.duration r = p.time_seconds)
  ∧ (r.signal_matrix = [] → ∀ q, r.series_data.getLast? = some q →
      App.duration r = q.time_seconds)
  ∧ (r.signal_matrix = [] → r.series_data = [] → App.duration r = 0) := by
  refine ⟨?_, ?_, ?_, ?_, ?_, ?_⟩
  · by_cases h : r.presets = []
    · simp [App.presets, h]
    · simp [App.presets, h]
  · intro h
    simp [App.presets, h]
  · intro h
    simp [App.presets, h]
  · intro p hp
    rw [App.duration, hp]
    rfl
  · intro hm q hq
    rw [App.duration, hm, hq]
    rfl
  · intro hm hs
    rw [App.duration, hm, hs]
    rfl

/-- C6 witness: with no backend presets and one matrix point at t = 10, the
synthesized list is exactly the full-flight window and the duration is that
point's timestamp. -/
theorem app_presets_correct_witness :
    App.presets (some respEx) = [App.fullFlightPreset (App.duration respEx)]
  ∧ App.duration respEx = matrixPtEx.time_seconds :=
  ⟨(app_presets_correct respEx).2.2.1 rfl,
    (app_presets_correct respEx).2.2.2.1 matrixPtEx (by decide)⟩

/-- C7: severity is exactly one of the three enumerated levels, and both
severity-keyed presentation maps (icon and colour) are total with
non-trivial output at every level, so lookup never fails. -/
theorem severity_enum_total (s : Severity) :
    (s = Severity.info ∨ s = Severity.warning ∨ s = Severity.critical)
  ∧ severityIcon s ≠ "" ∧ severityToHue s ≠ "" := by
  cases s with
  | info => exact ⟨Or.inl rfl, by decide, by decide⟩
  | warning => exact ⟨Or.inr (Or.inl rfl), by decide, by decide⟩
  | critical => exact ⟨Or.inr (Or.inr rfl), by decide, by decide⟩

/-- C8: with a non-null summary and non-blank command, exactly one request is
sent carrying the command, the window bounds, the full flight summary and
the complete unfiltered rule-event list; with a null summary or blank
command no request is sent and the log state is unchanged. -/
theorem run_command_requests (summary : Option FlightSummary) (ruleEvents : List RuleEvent)
    (logs : List AiLogEntry) (command : String) (window : Option (ℚ × ℚ))
    (out : AiOutcome) :
    (∀ s, summary = some s → jsTrim command ≠ "" →
      (useAiConsole.runCommand summary ruleEvents logs command window out).1 =
        [⟨command, window.map Prod.fst, window.map Prod.snd, s, ruleEvents⟩])
  ∧ (summary = none →
      useAiConsole.runCommand summary ruleEvents logs command window out = ([], logs))
  ∧ (jsTrim command = "" →
      useAiConsole.runCommand summary ruleEvents logs command window out = ([], logs)) := by
  refine ⟨?_, ?_, ?_⟩
  · intro s hs hcmd
    subst hs
    simp only [useAiConsole.runCommand]
    rw [if_neg hcmd]
  · intro hs
    subst hs
    rfl
  · intro hcmd
    cases summary with
    | none => rfl
    | some s =>
      simp only [useAiConsole.runCommand]
      rw [if_pos hcmd]

/-- C8 witness: a concrete non-blank command with a summary present sends
exactly the one expected request. -/
theorem run_command_requests_witness :
    (useAiConsole.runCommand (some summaryEx) [] [] "why" (some (60, 120))
        (AiOutcome.ok "fine")).1 =
      [⟨"why", some 60, some 120, summaryEx, []⟩] :=
  (run_command_requests (some summaryEx) [] [] "why" (some (60, 120))
    (AiOutcome.ok "fine")).1 summaryEx rfl (by decide)

/-- C9: FlightChart renders nothing for an empty series; for a non-empty
series the altitude and airspeed lines are drawn exactly when the first
point defines the corresponding field, irrespective of all later samples. -/
theorem flight_chart_first_sample (events : List FlightEvent) (p0 : SeriesPoint)
    (rest rest2 : List SeriesPoint) :
    FlightChart.render [] events = none
  ∧ FlightChart.render (p0 :: rest) events =
      some ⟨p0.alt_msl_ft.isSome, p0.airspeed_indicated_kt.isSome,
        events.filter (fun ev => decide (ev.severity = Severity.critical))⟩
  ∧ (FlightChart.render (p0 :: rest) events).map FlightChart.Render.drawAltitude =
      (FlightChart.render (p0 :: rest2) events).map FlightChart.Render.drawAltitude
  ∧ (FlightChart.render (p0 :: rest) events).map FlightChart.Render.drawAirspeed =
      (FlightChart.render (p0 :: rest2) events).map FlightChart.Render.drawAirspeed :=
  ⟨rfl, rfl, rfl, rfl⟩

/-- C10: at every non-negative integer number of seconds the three
independently defined time formatters return the identical string
floor(t/60) ++ ":" ++ (t mod 60 zero-padded to two digits); at the
non-integral input 0.5 FlightChart's formatter differs from the other two
because it does not floor the seconds remainder. -/
theorem time_formatters_agree (t : ℕ) :
    (EventsTimeline.formatTime t = canonicalTimeString t
      ∧ SignalStrip.formatTime t = canonicalTimeString t
      ∧ FlightChart.formatter t = canonicalTimeString t)
  ∧ FlightChart.formatter (1 / 2) ≠ EventsTimeline.formatTime (1 / 2)
  ∧ FlightChart.formatter (1 / 2) ≠ SignalStrip.formatTime (1 / 2) := by
  refine ⟨⟨?_, ?_, ?_⟩, ?_, ?_⟩
  · rw [EventsTimeline.formatTime, canonicalTimeString, floor_div_sixty, jsMod_natCast_sixty,
      Int.floor_natCast, toString_intCast_nat, toString_intCast_nat]
  · rw [SignalStrip.formatTime, canonicalTimeString, floor_div_sixty, jsMod_natCast_sixty,
      Int.floor_natCast, toString_intCast_nat, toString_intCast_nat]
  · rw [FlightChart.formatter, canonicalTimeString, floor_div_sixty, jsMod_natCast_sixty,
      jsNumToString_natCast, toString_intCast_nat]
  · norm_num [FlightChart.formatter, EventsTimeline.formatTime, jsNumToString, jsMod,
      jsTrunc, fracDigits, digitsStr, abs_of_pos, padStart2]
    decide
  · norm_num [FlightChart.formatter, SignalStrip.formatTime, jsNumToString, jsMod,
      jsTrunc, fracDigits, digitsStr, abs_of_pos, padStart2]
    decide
